import Mathlib

/-!
Verification of the retrieval-augmented streaming chat pipeline of Knowflow-Ai.

The development shallowly embeds the two core source units:

* the Session Stream Controller — the `POST` route handler that validates the
  request, retrieves and threshold-filters scored passages, composes the
  prompt, streams model output as typed events and persists the exchange
  (`src/app/api/chat/[id]/stream/route.ts`);
* the Client Stream Consumer — the `useSSEChat` hook that issues the request,
  decodes the event protocol line by line and folds it into UI state
  (`src/hooks/useSSEChat.ts`), together with the shared types of
  `src/lib/types.ts` and the Prisma `Message` row shape.

External collaborators (vector store, model inference, the database write and
JSON parsing) are modelled as oracle inputs carried by an environment record;
everything the repository's own code computes is embedded as executable Lean
functions over those inputs.
-/

/-- JavaScript `String.prototype.trim`, modelled on the character list. -/
def jsTrim (s : String) : String :=
  ⟨((s.toList.dropWhile Char.isWhitespace).reverse.dropWhile Char.isWhitespace).reverse⟩

/-- JavaScript `s.startsWith(p)`, modelled on character lists. -/
def jsStartsWith (s p : String) : Bool :=
  decide (s.toList.take p.toList.length = p.toList)

/-- JavaScript `s.slice(n)`: drop the first `n` characters. -/
def jsSlice (s : String) (n : Nat) : String := ⟨s.toList.drop n⟩

/-- JavaScript `s.includes(sub)`, modelled as list-infix search. -/
def jsIncludes (s sub : String) : Bool :=
  (List.range (s.toList.length + 1)).any
    (fun i => decide ((s.toList.drop i).take sub.toList.length = sub.toList))

/-- JavaScript `s.split('\n')`: split on every newline, keeping empty pieces. -/
def jsSplitNewlines (s : String) : List String :=
  (s.toList.foldr
    (fun ch acc =>
      if ch = '\n' then [] :: acc
      else match acc with
        | [] => [[ch]]
        | a :: as => (ch :: a) :: as)
    [[]]).map (fun l => ⟨l⟩)

namespace Knowflow

/-- Message roles (`'user' | 'assistant'` in rows, plus `'system'` for prompts). -/
inductive Role
  | user
  | assistant
  | system
deriving DecidableEq, Repr

/-- The metadata bag carried by a vector-store document; the route only ever
reads `metadata?.documentName`. -/
structure DocMetadata where
  documentName : Option String
deriving DecidableEq, Repr

/-- `DocumentSource` of `src/lib/types.ts`. -/
structure DocumentSource where
  id : String
  name : String
  pageContent : String
  metadata : Option DocMetadata
deriving DecidableEq, Repr

/-- A document returned by `vectorStore.similaritySearchWithScore`. -/
structure RetrievedDoc where
  pageContent : String
  metadata : Option DocMetadata
deriving DecidableEq, Repr

/-- A row of the Prisma `Message` table (the fields the pipeline touches). -/
structure StoredMessage where
  id : String
  projectId : String
  role : Role
  content : String
  isDeleted : Bool
  createdAt : Nat
deriving DecidableEq, Repr

/-- A row as written by `prisma.message.createMany` in the stream route: the
insert supplies only `id`, `projectId`, `content` and `role`, so the nullable
`metadata` JSONB column of the schema is left `NULL`. -/
structure PersistRow where
  id : String
  projectId : String
  content : String
  role : Role
  metadata : Option String
deriving DecidableEq, Repr

/-- One wire event (`StreamChunk` with `type` restricted to what the route
emits; the `sources` payload is kept structured rather than JSON-encoded). -/
inductive Event
  | sources (payload : List DocumentSource)
  | text (content : String)
  | done
  | error (content : String)
deriving DecidableEq, Repr

def Event.isSources : Event → Bool
  | .sources _ => true
  | _ => false

def Event.isText : Event → Bool
  | .text _ => true
  | _ => false

def Event.isDone : Event → Bool
  | .done => true
  | _ => false

def Event.isError : Event → Bool
  | .error _ => true
  | _ => false

/-- The payloads of the `text` events of a trace, in order. -/
def textPayloads (evts : List Event) : List String :=
  evts.filterMap (fun e =>
    match e with
    | .text s => some s
    | _ => none)

/-- `const SIM_THRESHOLD = 0.75`. -/
def SIM_THRESHOLD : ℚ := 0.75

/-- `scored.filter(([, score]) => score >= SIM_THRESHOLD)`, with the threshold
as a parameter. -/
def relevanceFilter (scored : List (RetrievedDoc × ℚ)) (threshold : ℚ) :
    List (RetrievedDoc × ℚ) :=
  scored.filter (fun p => decide (p.2 ≥ threshold))

/-- `doc.metadata?.documentName || 'Document'` (the empty string is falsy). -/
def docName (m : Option DocMetadata) : String :=
  match m with
  | none => "Document"
  | some md =>
    match md.documentName with
    | none => "Document"
    | some s => if s = "" then "Document" else s

/-- `filtered.map(([doc], idx) => ({ id: 'src-' + idx, ... }))`. -/
def sourcesOf (filtered : List (RetrievedDoc × ℚ)) : List DocumentSource :=
  filtered.enum.map (fun p =>
    { id := "src-" ++ toString p.1
      name := docName p.2.1.metadata
      pageContent := p.2.1.pageContent
      metadata := p.2.1.metadata })

/-- `sources.map((s, i) => '[' + (i+1) + '] ' + s.pageContent).join('\n---\n')`. -/
def contextText (sources : List DocumentSource) : String :=
  String.intercalate "\n---\n"
    (sources.enum.map (fun p => "[" ++ toString (p.1 + 1) ++ "] " ++ p.2.pageContent))

/-- The `baseSystem` template string of the route, with the caller's
`contextStyle` interpolated. -/
def baseSystem (contextStyle : String) : String :=
  "You are an AI assistant with broad knowledge. When an additional CONTEXT section is supplied, use it to improve accuracy, resolve ambiguity, or cite sources. If the context contradicts general knowledge, follow the context. If the context does not relate to the question, rely on your own knowledge. Respond in a "
    ++ contextStyle ++ " style."

/-- One role-tagged message of the prompt sent to the model. -/
structure ChatMessage where
  role : Role
  content : String
deriving DecidableEq, Repr

/-- The `messagesForLLM` array built by the route: base system message, the
context system message when any source survived filtering, the recent history
turns with their original roles, then the new user message. -/
def messagesForLLM (contextStyle : String) (sources : List DocumentSource)
    (recentMessages : List StoredMessage) (message : String) : List ChatMessage :=
  [⟨Role.system, baseSystem contextStyle⟩]
    ++ (if sources.length > 0 then
          [⟨Role.system, "Context:\n" ++ contextText sources⟩]
        else [])
    ++ recentMessages.map (fun m => ⟨m.role, m.content⟩)
    ++ [⟨Role.user, message⟩]

/-- Ordering used by the Prisma include: `orderBy: { createdAt: 'desc' }`. -/
def byCreatedAtDesc (a b : StoredMessage) : Prop := b.createdAt ≤ a.createdAt

instance : DecidableRel byCreatedAtDesc := fun a b =>
  inferInstanceAs (Decidable (b.createdAt ≤ a.createdAt))

instance : IsTotal StoredMessage byCreatedAtDesc :=
  ⟨fun a b => Nat.le_total b.createdAt a.createdAt⟩

instance : IsTrans StoredMessage byCreatedAtDesc :=
  ⟨fun _ _ _ h1 h2 => Nat.le_trans h2 h1⟩

/-- The `include: { messages: { orderBy: { createdAt: 'desc' }, take: 10 } }`
clause of the ownership query: the project's messages, most recent first,
capped at 10 — with no condition on `isDeleted`. -/
def historyQuery (table : List StoredMessage) (projectId : String) :
    List StoredMessage :=
  (List.insertionSort byCreatedAtDesc
      (table.filter (fun m => m.projectId = projectId))).take 10

/-- `const recentMessages = project.messages.slice(0, 6).reverse()`. -/
def recentMessagesOf (table : List StoredMessage) (projectId : String) :
    List StoredMessage :=
  ((historyQuery table projectId).take 6).reverse

/-- The `message` field of the request body as JavaScript sees it: absent,
present but not a string, or a string value. -/
inductive BodyMessage
  | missing
  | notString
  | str (s : String)
deriving DecidableEq, Repr

/-- `if (!message || typeof message !== 'string')` — note that only the empty
string is falsy: no trimming is applied here. -/
def messageValid : BodyMessage → Bool
  | .missing => false
  | .notString => false
  | .str s => decide (s ≠ "")

/-- The behaviour of the model-streaming collaborator for one request:
`deltas` lists `chunk.choices[0]?.delta?.content` for each chunk delivered;
`midFail` says the OpenAI call (or its async iteration) throws after them. -/
structure ModelRun where
  deltas : List (Option String)
  midFail : Bool
deriving DecidableEq, Repr

/-- Everything the route observes from its collaborators during one request. -/
structure ControllerEnv where
  sessionUserId : Option String
  projectOwned : Bool
  messageTable : List StoredMessage
  bodyMessage : BodyMessage
  sessionId : String
  contextStyle : Option String
  openaiKeyConfigured : Bool
  pineconeConfigured : Bool
  retrieval : Option (List (RetrievedDoc × ℚ))
  model : ModelRun
  dbWriteOk : Bool

/-- The generic message of the route's catch-all `sendError`. -/
def genericStreamError : String := "An error occurred while processing your message"

/-- The text chunks actually emitted and accumulated: `if (content)` skips
absent and empty deltas alike. -/
def truthyTexts (deltas : List (Option String)) : List String :=
  deltas.filterMap (fun d =>
    match d with
    | some s => if s = "" then none else some s
    | none => none)

/-- The two rows handed to `prisma.message.createMany` on completion. -/
def persistRows (sessionId projectId message fullResponse : String) :
    PersistRow × PersistRow :=
  (⟨sessionId ++ "-user", projectId, message, Role.user, none⟩,
   ⟨sessionId ++ "-assistant", projectId, fullResponse, Role.assistant, none⟩)

/-- What one run of the SSE body produces: the emitted event trace and the
rows that reached the database (none when the write failed or never ran). -/
structure StreamOutcome where
  events : List Event
  persisted : Option (PersistRow × PersistRow)
deriving DecidableEq, Repr

/-- The body of the `ReadableStream`'s `start`: configuration checks, RAG
retrieval, threshold filtering, the `sources` event, the model stream relayed
as `text` events, the best-effort `createMany`, and the terminal event. -/
def runStream (env : ControllerEnv) (projectId message : String) : StreamOutcome :=
  if env.openaiKeyConfigured = false then
    ⟨[Event.error "OpenAI API key not configured"], none⟩
  else if env.pineconeConfigured = false then
    ⟨[Event.error "Pinecone environment variables not configured"], none⟩
  else
    match env.retrieval with
    | none => ⟨[Event.error genericStreamError], none⟩
    | some scored =>
      let filtered := relevanceFilter scored SIM_THRESHOLD
      let srcs := sourcesOf filtered
      let texts := truthyTexts env.model.deltas
      if env.model.midFail then
        ⟨Event.sources srcs :: (texts.map Event.text ++ [Event.error genericStreamError]),
         none⟩
      else
        ⟨Event.sources srcs :: (texts.map Event.text ++ [Event.done]),
         if env.dbWriteOk then
           some (persistRows env.sessionId projectId message (String.join texts))
         else none⟩

/-- The prompt the route hands to the model client (defined when retrieval
succeeded). -/
def promptOf (env : ControllerEnv) (projectId message : String) :
    Option (List ChatMessage) :=
  (env.retrieval).map (fun scored =>
    messagesForLLM (env.contextStyle.getD "detailed")
      (sourcesOf (relevanceFilter scored SIM_THRESHOLD))
      (recentMessagesOf env.messageTable projectId) message)

/-- The route's possible responses. -/
inductive PostResult
  | unauthorized
  | forbidden
  | badRequest
  | streamResp (outcome : StreamOutcome)
deriving DecidableEq, Repr

def PostResult.isStream : PostResult → Bool
  | .streamResp _ => true
  | _ => false

/-- The `POST` handler of the stream route up to its response: authentication,
ownership, body validation, then the SSE stream. -/
def POST (env : ControllerEnv) (projectId : String) : PostResult :=
  match env.sessionUserId with
  | none => .unauthorized
  | some _ =>
    if env.projectOwned = false then .forbidden
    else
      match env.bodyMessage with
      | .missing => .badRequest
      | .notString => .badRequest
      | .str s => if s = "" then .badRequest else .streamResp (runStream env projectId s)

/-- A run of the stream body that reaches natural completion: both backends
configured, retrieval returned, and the model stream finished without
throwing. -/
def naturalCompletion (env : ControllerEnv) : Prop :=
  env.openaiKeyConfigured = true ∧ env.pineconeConfigured = true ∧
    env.retrieval ≠ none ∧ env.model.midFail = false

instance (env : ControllerEnv) : Decidable (naturalCompletion env) :=
  inferInstanceAs (Decidable (_ ∧ _ ∧ _ ∧ _))

/-- `metadata` of a client-side `Message` as the hook builds it. -/
structure MsgMetadata where
  sources : List DocumentSource
  timestamp : String
deriving DecidableEq, Repr

/-- A client-side `Message` (the fields `useSSEChat` writes). -/
structure CMessage where
  id : String
  role : Role
  content : String
  metadata : Option MsgMetadata
  images : List String
  createdAt : Nat
deriving DecidableEq, Repr

/-- The hook's `ChatState`. -/
structure ChatState where
  messages : List CMessage
  isLoading : Bool
  streamingContent : String
  sources : List DocumentSource
  error : Option String
deriving DecidableEq, Repr

/-- The result of `JSON.parse` on one event line's payload, shaped like
`StreamChunk` (`type` is an arbitrary string at runtime). -/
structure StreamChunkJS where
  type : String
  content : String
deriving DecidableEq, Repr

/-- How the transport terminates after the delivered chunks: a clean
`done: true` read, an `AbortError` from a caller-initiated abort, or another
rejection. -/
inductive ReadEnd
  | streamDone
  | aborted
  | failed (msg : String)
deriving DecidableEq, Repr

/-- Everything `sendMessage` observes from the network and platform during one
call: the fetch outcome, the chunk trace the reader delivers, how reading
ends, the behaviour of `JSON.parse` (`none` models a throw), and the
generated identifiers and clock readings. -/
structure TransportEnv where
  fetchOk : Bool
  httpStatus : Nat
  readerAvailable : Bool
  chunks : List String
  ending : ReadEnd
  parseEvent : String → Option StreamChunkJS
  parseSources : String → Option (List DocumentSource)
  userMsgId : String
  assistantMsgId : String
  now : Nat
  nowIso : String

/-- The local variables of the read loop, plus a ghost counter of how many
times `reader.releaseLock()` has been invoked. -/
structure LoopState where
  st : ChatState
  fullAssistantContent : String
  currentSources : List DocumentSource
  readerReleased : Bool
  releases : Nat
deriving DecidableEq, Repr

/-- `if (!readerReleased) { reader.releaseLock(); readerReleased = true; }`. -/
def doRelease (ls : LoopState) : LoopState :=
  if ls.readerReleased then ls
  else { ls with readerReleased := true, releases := ls.releases + 1 }

/-- What processing one line did to control flow: fall through to the next
line, or return out of `sendMessage` from the `done` / `error` handler. -/
inductive LineStep
  | next
  | exitDone
  | exitError
deriving DecidableEq, Repr

/-- Processing of a single decoded line inside the read loop: the event-marker
check, `slice(6).trim()`, the guarded `JSON.parse`, and the `switch` on the
event type.  A parse failure is caught and logged, leaving all state as it
was. -/
def processLine (env : TransportEnv) (ls : LoopState) (line : String) :
    LoopState × LineStep :=
  if jsStartsWith line "data: " then
    let jsonStr := jsTrim (jsSlice line 6)
    if jsonStr = "" then (ls, .next)
    else
      match env.parseEvent jsonStr with
      | none => (ls, .next)
      | some data =>
        if data.type = "sources" then
          match env.parseSources data.content with
          | none => (ls, .next)
          | some srcs =>
            ({ ls with
                currentSources := srcs
                st := { ls.st with sources := srcs } }, .next)
        else if data.type = "text" then
          let full := ls.fullAssistantContent ++ data.content
          ({ ls with
              fullAssistantContent := full
              st := { ls.st with streamingContent := full } }, .next)
        else if data.type = "image" then
          (ls, .next)
        else if data.type = "done" then
          let assistantMessage : CMessage :=
            { id := env.assistantMsgId ++ "_assistant"
              role := Role.assistant
              content := ls.fullAssistantContent
              metadata := some { sources := ls.currentSources, timestamp := env.nowIso }
              images := []
              createdAt := env.now }
          (doRelease
            { ls with
                st := { ls.st with
                  messages := ls.st.messages ++ [assistantMessage]
                  isLoading := false
                  streamingContent := ""
                  sources := [] } }, .exitDone)
        else if data.type = "error" then
          (doRelease
            { ls with
                st := { ls.st with
                  error := some data.content
                  isLoading := false
                  streamingContent := "" } }, .exitError)
        else (ls, .next)
  else (ls, .next)

/-- `for (const line of lines) { ... }`, with the early `return`s of the
`done` / `error` handlers. -/
def processLines (env : TransportEnv) (ls : LoopState) :
    List String → LoopState × LineStep
  | [] => (ls, .next)
  | l :: rest =>
    match processLine env ls l with
    | (ls', .next) => processLines env ls' rest
    | (ls', s) => (ls', s)

/-- How the `while (true)` read loop ended. -/
inductive LoopExit
  | returnedDone
  | returnedError
  | exhausted
  | thrownAbort
  | thrownFail (msg : String)
deriving DecidableEq, Repr

/-- The read loop: pull each chunk, split it on newlines, process the lines;
stop on an early return, on `done: true`, or on a rejected read. -/
def runReadLoop (env : TransportEnv) (ls : LoopState) :
    List String → LoopState × LoopExit
  | [] =>
    match env.ending with
    | .streamDone => (ls, .exhausted)
    | .aborted => (ls, .thrownAbort)
    | .failed m => (ls, .thrownFail m)
  | c :: rest =>
    match processLines env ls (jsSplitNewlines c) with
    | (ls', .next) => runReadLoop env ls' rest
    | (ls', .exitDone) => (ls', .returnedDone)
    | (ls', .exitError) => (ls', .returnedError)

/-- The message rewriting of the hook's outer `catch` for non-abort errors. -/
def mapFetchError (m : String) : String :=
  if jsIncludes m "timeout" then "Request timed out. Please try again."
  else if jsIncludes m "network" then
    "Network error. Please check your connection and try again."
  else m

/-- What one call to `sendMessage` produced: the final `ChatState`, whether a
network request was issued at all, and how many times the reader lock was
released. -/
structure SendResult where
  state : ChatState
  requestIssued : Bool
  releases : Nat
deriving DecidableEq, Repr

/-- The hook's `sendMessage`: the no-op guard, the optimistic user message,
the fetch, the read loop, the `finally` release, and the `catch` handling of
aborts and failures. -/
def sendMessage (env : TransportEnv) (st : ChatState) (content : String)
    (optImages : List String) : SendResult :=
  if jsTrim content = "" ∨ st.isLoading then ⟨st, false, 0⟩
  else
    let userMessage : CMessage :=
      { id := env.userMsgId ++ "_user"
        role := Role.user
        content := jsTrim content
        metadata := none
        images := optImages
        createdAt := env.now }
    let st1 : ChatState :=
      { messages := st.messages ++ [userMessage]
        isLoading := true
        streamingContent := ""
        sources := []
        error := none }
    if env.fetchOk = false then
      ⟨{ st1 with
          error := some (mapFetchError ("HTTP error! status: " ++ toString env.httpStatus))
          isLoading := false
          streamingContent := "" }, true, 0⟩
    else if env.readerAvailable = false then
      ⟨{ st1 with
          error := some (mapFetchError "Failed to get response reader")
          isLoading := false
          streamingContent := "" }, true, 0⟩
    else
      let run := runReadLoop env ⟨st1, "", [], false, 0⟩ env.chunks
      let ls := if run.1.readerReleased then run.1
                else { run.1 with releases := run.1.releases + 1 }
      match run.2 with
      | .returnedDone => ⟨ls.st, true, ls.releases⟩
      | .returnedError => ⟨ls.st, true, ls.releases⟩
      | .exhausted => ⟨ls.st, true, ls.releases⟩
      | .thrownAbort =>
        ⟨{ ls.st with isLoading := false, streamingContent := "" }, true, ls.releases⟩
      | .thrownFail m =>
        ⟨{ ls.st with
            error := some (mapFetchError m)
            isLoading := false
            streamingContent := "" }, true, ls.releases⟩

/-! ### Trace shape predicates and concrete fixtures -/

/-- A successful stream's observable contract: one `sources` event first, only
`text` events in between with payloads matching the model's truthy deltas in
order, a single terminal `done`, no `error`, and any persisted assistant row
carrying exactly the concatenation of the `text` payloads. -/
def wellFormedSuccessTrace (out : StreamOutcome) (deltas : List (Option String)) : Prop :=
  (out.events.filter Event.isSources).length = 1 ∧
  out.events.head?.map Event.isSources = some true ∧
  (out.events.filter Event.isDone).length = 1 ∧
  out.events.getLast? = some Event.done ∧
  out.events.filter Event.isError = [] ∧
  (∀ e ∈ (out.events.drop 1).dropLast, Event.isText e = true) ∧
  textPayloads out.events = truthyTexts deltas ∧
  (∀ rows, out.persisted = some rows →
    rows.2.content = String.join (textPayloads out.events))

/-- A failed stream's observable contract: exactly one `error` event, placed
last, no `done`, and nothing persisted. -/
def errorTerminatedTrace (out : StreamOutcome) : Prop :=
  (out.events.filter Event.isError).length = 1 ∧
  out.events.getLast?.map Event.isError = some true ∧
  out.events.filter Event.isDone = [] ∧
  out.persisted = none

/-- The ghost release counter always mirrors the released-flag. -/
def releaseInvariant (ls : LoopState) : Prop :=
  ls.releases = if ls.readerReleased then 1 else 0

/-- A passage scoring 0.91 in the refund-policy scenario. -/
def passageHigh : RetrievedDoc :=
  ⟨"Refunds are accepted within 30 days of purchase.", some ⟨some "policy.pdf"⟩⟩

/-- A passage scoring 0.60 in the refund-policy scenario. -/
def passageLow : RetrievedDoc := ⟨"The office is open on weekdays.", none⟩

/-- The scored candidates of the refund-policy scenario. -/
def scenarioScored : List (RetrievedDoc × ℚ) := [(passageHigh, 0.91), (passageLow, 0.60)]

/-- A fully configured controller environment whose model stream yields
`"Hel"`, `"lo"` and completes; retrieval returns no candidates. -/
def envFixture : ControllerEnv :=
  { sessionUserId := some "u1"
    projectOwned := true
    messageTable := []
    bodyMessage := .str "hi"
    sessionId := "s1"
    contextStyle := none
    openaiKeyConfigured := true
    pineconeConfigured := true
    retrieval := some []
    model := { deltas := [some "Hel", some "lo", some "", none], midFail := false }
    dbWriteOk := true }

/-- `envFixture` with the model stream throwing after its deltas. -/
def envMidFail : ControllerEnv :=
  { envFixture with model := { deltas := [some "Hel"], midFail := true } }

/-- `envFixture` with a whitespace-only request message. -/
def envWhitespace : ControllerEnv := { envFixture with bodyMessage := .str " " }

/-- `envFixture` carrying the refund-policy scenario's retrieval results. -/
def envScenario : ControllerEnv := { envFixture with retrieval := some scenarioScored }

/-- A soft-deleted stored turn. -/
def deletedMsg : StoredMessage := ⟨"m1", "p1", Role.user, "hello", true, 5⟩

/-- Concrete `JSON.parse` behaviour used by the transport fixtures: four
tokens decode to `text`/`done`/`error` chunks, everything else throws. -/
def parseFixture : String → Option StreamChunkJS := fun s =>
  if s = "T1" then some ⟨"text", "Hel"⟩
  else if s = "T2" then some ⟨"text", "lo"⟩
  else if s = "D" then some ⟨"done", ""⟩
  else if s = "E" then some ⟨"error", "boom"⟩
  else none

/-- A transport environment delivering two text events then `done`. -/
def transportFixture : TransportEnv :=
  { fetchOk := true
    httpStatus := 200
    readerAvailable := true
    chunks := ["data: T1\n\ndata: T2\n\n", "data: D\n\n"]
    ending := .streamDone
    parseEvent := parseFixture
    parseSources := fun _ => none
    userMsgId := "i1"
    assistantMsgId := "i2"
    now := 7
    nowIso := "2026-10-12T00:00:00.000Z" }

/-- `transportFixture` aborted by the caller before any event arrived. -/
def transportAborted : TransportEnv :=
  { transportFixture with chunks := [], ending := .aborted }

/-- The hook's initial state with no prior messages. -/
def chatState0 : ChatState := ⟨[], false, "", [], none⟩

/-- `chatState0` while a request is in flight. -/
def chatStateLoading : ChatState := ⟨[], true, "", [], none⟩

/-! ### Theorems -/

/-- Helper: the prompt is the base system message consed onto the optional
context block, the mapped history and the final user message. -/
theorem messagesForLLM_shape (style : String) (srcs : List DocumentSource)
    (recent : List StoredMessage) (msg : String) :
    messagesForLLM style srcs recent msg =
      ⟨Role.system, baseSystem style⟩
        :: ((if srcs.length > 0 then
              [⟨Role.system, "Context:\n" ++ contextText srcs⟩] else [])
            ++ (recent.map (fun m => (⟨m.role, m.content⟩ : ChatMessage))
              ++ [⟨Role.user, msg⟩])) := by
  unfold messagesForLLM
  simp [List.append_assoc]

/-- Helper: the history query result is sorted most-recent-first. -/
theorem historyQuery_sorted (table : List StoredMessage) (pid : String) :
    (historyQuery table pid).Pairwise byCreatedAtDesc := by
  have h := List.sorted_insertionSort byCreatedAtDesc
      (table.filter (fun m => m.projectId = pid))
  exact h.sublist (List.take_sublist _ _)

/-- Helper: a filter that rejects every `text` event annihilates a mapped
text block. -/
theorem filter_textMap_eq_nil (p : Event → Bool) (hp : ∀ s, p (Event.text s) = false)
    (l : List String) : (l.map Event.text).filter p = [] := by
  induction l with
  | nil => rfl
  | cons a l ih => simp [List.filter_cons, hp, ih]

/-- Helper: the `text` payloads of a mapped text block are the block itself. -/
theorem textPayloads_textMap (l : List String) : textPayloads (l.map Event.text) = l := by
  induction l with
  | nil => rfl
  | cons a l ih =>
    simp only [textPayloads, List.map_cons, List.filterMap_cons] at *
    rw [ih]

/-- C2: the Relevance Filter returns exactly the subsequence of scored
candidates whose score is at least the threshold, preserving input order; in
the refund-policy scenario (scores 0.91 and 0.60 against threshold 0.75) only
the 0.91 passage survives and the `sources` event carries a one-element
array. -/
theorem C2_relevance_filter :
    (∀ (scored : List (RetrievedDoc × ℚ)) (t : ℚ),
      (relevanceFilter scored t).Sublist scored ∧
      ∀ p, p ∈ relevanceFilter scored t ↔ p ∈ scored ∧ p.2 ≥ t) ∧
    relevanceFilter scenarioScored SIM_THRESHOLD = [(passageHigh, 0.91)] ∧
    (sourcesOf (relevanceFilter scenarioScored SIM_THRESHOLD)).length = 1 ∧
    (runStream envScenario "p1" "What is the refund policy?").events.head? =
      some (Event.sources (sourcesOf [(passageHigh, 0.91)])) := by
  have hfil : relevanceFilter scenarioScored SIM_THRESHOLD = [(passageHigh, 0.91)] := by
    simp only [relevanceFilter, scenarioScored, SIM_THRESHOLD, List.filter]
    norm_num
  refine ⟨fun scored t => ⟨List.filter_sublist _, fun p => ?_⟩, hfil, by rw [hfil]; rfl, ?_⟩
  · simp [relevanceFilter, List.mem_filter, ge_iff_le]
  · have hev : (runStream envScenario "p1" "What is the refund policy?").events =
        Event.sources (sourcesOf (relevanceFilter scenarioScored SIM_THRESHOLD))
          :: ((truthyTexts envScenario.model.deltas).map Event.text ++ [Event.done]) := rfl
    rw [hev, hfil]
    rfl

/-- C9: calling `sendMessage` while a request is in flight or with content
that is empty after trimming is a no-op: the state is returned unchanged, no
network request is issued and no reader release happens. -/
theorem C9_sendMessage_noop (env : TransportEnv) (st : ChatState) (content : String)
    (optImages : List String) (h : st.isLoading = true ∨ jsTrim content = "") :
    sendMessage env st content optImages = ⟨st, false, 0⟩ := by
  have hc : jsTrim content = "" ∨ st.isLoading = true := by
    rcases h with h | h
    · exact Or.inr h
    · exact Or.inl h
  unfold sendMessage
  rw [if_pos hc]

/-- Witness for C9 at a concrete in-flight state. -/
theorem C9_witness :
    (chatStateLoading.isLoading = true ∨ jsTrim "hello" = "") ∧
    sendMessage transportFixture chatStateLoading "hello" [] = ⟨chatStateLoading, false, 0⟩ :=
  ⟨Or.inl rfl,
   C9_sendMessage_noop transportFixture chatStateLoading "hello" [] (Or.inl rfl)⟩

/-- C10: a received line that begins with `data: ` but whose remainder is
blank or fails to parse as JSON is skipped: the loop state is untouched, no
error is set, and the remaining lines are processed as if the bad line were
absent. -/
theorem C10_malformed_line_skipped (env : TransportEnv) (ls : LoopState) (line : String)
    (rest : List String) (hpre : jsStartsWith line "data: " = true)
    (hbad : jsTrim (jsSlice line 6) = "" ∨
      env.parseEvent (jsTrim (jsSlice line 6)) = none) :
    processLine env ls line = (ls, LineStep.next) ∧
    processLines env ls (line :: rest) = processLines env ls rest := by
  have h1 : processLine env ls line = (ls, LineStep.next) := by
    unfold processLine
    rw [if_pos hpre]
    by_cases hz : jsTrim (jsSlice line 6) = ""
    · simp [hz]
    · rcases hbad with hb | hb
      · exact absurd hb hz
      · simp [hz, hb]
  exact ⟨h1, by simp only [processLines, h1]⟩

/-- Witness for C10 at a concrete malformed line. -/
theorem C10_witness :
    jsStartsWith "data: garbage" "data: " = true ∧
    transportFixture.parseEvent (jsTrim (jsSlice "data: garbage" 6)) = none ∧
    processLine transportFixture ⟨chatState0, "", [], false, 0⟩ "data: garbage" =
      (⟨chatState0, "", [], false, 0⟩, LineStep.next) :=
  ⟨by decide, by decide,
   (C10_malformed_line_skipped transportFixture ⟨chatState0, "", [], false, 0⟩
      "data: garbage" [] (by decide) (Or.inr (by decide))).1⟩

/-- Counterexample to C5 as stated: a soft-deleted turn is not excluded — with
a single soft-deleted stored message, the history passed to the model contains
that turn's content. -/
theorem C5_counterexample :
    deletedMsg.isDeleted = true ∧
    recentMessagesOf [deletedMsg] "p1" = [deletedMsg] ∧
    messagesForLLM "detailed" [] (recentMessagesOf [deletedMsg] "p1") "q" =
      [⟨Role.system, baseSystem "detailed"⟩, ⟨Role.user, "hello"⟩, ⟨Role.user, "q"⟩] := by
  exact ⟨rfl, by decide, by rfl⟩

/-- C5 amended: the history query applies no soft-delete filter — every turn
among the six most recent rows returned for the project appears in the prompt
messages regardless of its `isDeleted` marker. -/
theorem C5_history_includes_soft_deleted (table : List StoredMessage)
    (pid style msg : String) (srcs : List DocumentSource) (m : StoredMessage)
    (h : m ∈ (historyQuery table pid).take 6) :
    (⟨m.role, m.content⟩ : ChatMessage) ∈
      messagesForLLM style srcs (recentMessagesOf table pid) msg := by
  have hm : m ∈ ((historyQuery table pid).take 6).reverse := List.mem_reverse.mpr h
  simp only [messagesForLLM, recentMessagesOf, List.mem_append, List.mem_map]
  exact Or.inl (Or.inr ⟨m, hm, rfl⟩)

/-- Witness for the amended C5 at a concrete soft-deleted turn. -/
theorem C5_witness :
    deletedMsg ∈ (historyQuery [deletedMsg] "p1").take 6 ∧
    (⟨deletedMsg.role, deletedMsg.content⟩ : ChatMessage) ∈
      messagesForLLM "detailed" [] (recentMessagesOf [deletedMsg] "p1") "q" :=
  ⟨by decide,
   C5_history_includes_soft_deleted [deletedMsg] "p1" "detailed" "q" [] deletedMsg (by decide)⟩

/-- Counterexample to C6 as stated: a whitespace-only message (empty after
trimming) is not rejected — validation never trims, so the event stream
opens. -/
theorem C6_counterexample :
    jsTrim " " = "" ∧
    PostResult.isStream (POST envWhitespace "p1") = true ∧
    POST envWhitespace "p1" ≠ PostResult.badRequest := by
  exact ⟨by decide, by decide, by decide⟩

/-- C6 amended: for an authenticated caller owning the project, the Controller
rejects pre-stream with HTTP 400 exactly the requests whose message is
missing, not a string, or the empty string; any other string — including a
whitespace-only one — opens the event stream. -/
theorem C6_pre_stream_validation (env : ControllerEnv) (pid : String)
    (hauth : env.sessionUserId ≠ none) (hown : env.projectOwned = true) :
    (POST env pid = PostResult.badRequest ↔
      (env.bodyMessage = BodyMessage.missing ∨ env.bodyMessage = BodyMessage.notString ∨
        env.bodyMessage = BodyMessage.str "")) ∧
    (∀ s, env.bodyMessage = BodyMessage.str s → s ≠ "" →
      POST env pid = PostResult.streamResp (runStream env pid s)) := by
  obtain ⟨u, hu⟩ := Option.ne_none_iff_exists'.mp hauth
  unfold POST
  rw [hu, hown]
  simp only [Bool.true_eq_false, if_false]
  constructor
  · cases hb : env.bodyMessage with
    | missing => simp
    | notString => simp
    | str s =>
      by_cases hs : s = ""
      · subst hs; simp
      · simp [hs]
  · intro s hs hne
    rw [hs]
    simp [hne]

/-- Witness for the amended C6: the empty-string message is rejected with
400. -/
theorem C6_witness :
    POST { envFixture with bodyMessage := BodyMessage.str "" } "p1" = PostResult.badRequest :=
  ((C6_pre_stream_validation { envFixture with bodyMessage := BodyMessage.str "" } "p1"
      (by decide) rfl).1).mpr (Or.inr (Or.inr rfl))

/-- Counterexample to C4 as stated: on a completed stream the persisted
assistant row has a `NULL` metadata field — the filtered sources and timestamp
are not stored. -/
theorem C4_counterexample :
    (runStream envFixture "p1" "hi").persisted = some (persistRows "s1" "p1" "hi" "Hello") ∧
    (persistRows "s1" "p1" "hi" "Hello").2.metadata = none ∧
    (persistRows "s1" "p1" "hi" "Hello").2.content = "Hello" := by
  exact ⟨by decide, rfl, rfl⟩

/-- C4 amended: every exchange persisted at stream completion stores both
turns with a `NULL` metadata field — `createMany` supplies only `id`,
`projectId`, `content` and `role`, so neither the filtered sources nor a
timestamp is persisted. -/
theorem C4_persisted_metadata_null (env : ControllerEnv) (pid msg : String)
    (rows : PersistRow × PersistRow)
    (h : (runStream env pid msg).persisted = some rows) :
    rows.1.metadata = none ∧ rows.2.metadata = none := by
  unfold runStream at h
  split at h
  · simp at h
  · split at h
    · simp at h
    · split at h
      · simp at h
      · split at h
        · simp at h
        · split at h
          · injection h with h
            subst h
            exact ⟨rfl, rfl⟩
          · simp at h

/-- Witness for the amended C4 at a concrete completed stream. -/
theorem C4_witness :
    (runStream envFixture "p1" "hi").persisted = some (persistRows "s1" "p1" "hi" "Hello") ∧
    ((persistRows "s1" "p1" "hi" "Hello").1.metadata = none ∧
      (persistRows "s1" "p1" "hi" "Hello").2.metadata = none) :=
  ⟨by decide, C4_persisted_metadata_null envFixture "p1" "hi" _ (by decide)⟩

/-- C3: the composed prompt starts with one system message whose text embeds
the caller-chosen response style; a context system message with
`[index] passage` entries separated by `---` follows exactly when the filtered
context is non-empty; then come the (at most six, chronologically ordered,
most recent) history turns with their original roles; the new user message is
last; and with empty context and empty history the prompt is exactly the base
guideline message followed by the user message. -/
theorem C3_prompt_composition (style pid msg : String) (srcs : List DocumentSource)
    (table : List StoredMessage) :
    (messagesForLLM style srcs (recentMessagesOf table pid) msg).head? =
        some ⟨Role.system, baseSystem style⟩ ∧
    baseSystem style =
      "You are an AI assistant with broad knowledge. When an additional CONTEXT section is supplied, use it to improve accuracy, resolve ambiguity, or cite sources. If the context contradicts general knowledge, follow the context. If the context does not relate to the question, rely on your own knowledge. Respond in a "
        ++ style ++ " style." ∧
    (srcs ≠ [] →
      (messagesForLLM style srcs (recentMessagesOf table pid) msg).drop 1 =
        ⟨Role.system, "Context:\n" ++ String.intercalate "\n---\n"
            (srcs.enum.map (fun p => "[" ++ toString (p.1 + 1) ++ "] " ++ p.2.pageContent))⟩
          :: ((recentMessagesOf table pid).map (fun m => ⟨m.role, m.content⟩)
              ++ [⟨Role.user, msg⟩])) ∧
    (srcs = [] →
      messagesForLLM style srcs (recentMessagesOf table pid) msg =
        ⟨Role.system, baseSystem style⟩
          :: ((recentMessagesOf table pid).map (fun m => ⟨m.role, m.content⟩)
              ++ [⟨Role.user, msg⟩])) ∧
    (messagesForLLM style srcs (recentMessagesOf table pid) msg).getLast? =
        some ⟨Role.user, msg⟩ ∧
    (recentMessagesOf table pid).length ≤ 6 ∧
    (recentMessagesOf table pid).Pairwise (fun a b => a.createdAt ≤ b.createdAt) ∧
    (∀ a ∈ (historyQuery table pid).take 6, ∀ b ∈ (historyQuery table pid).drop 6,
        b.createdAt ≤ a.createdAt) ∧
    (srcs = [] → recentMessagesOf table pid = [] →
      messagesForLLM style srcs (recentMessagesOf table pid) msg =
        [⟨Role.system, baseSystem style⟩, ⟨Role.user, msg⟩]) := by
  refine ⟨?_, rfl, ?_, ?_, ?_, ?_, ?_, ?_, ?_⟩
  · rw [messagesForLLM_shape]
    rfl
  · intro hne
    have hlen : srcs.length > 0 := List.length_pos.mpr hne
    rw [messagesForLLM_shape, if_pos hlen]
    simp [contextText]
  · intro he
    subst he
    rw [messagesForLLM_shape]
    simp
  · rw [messagesForLLM_shape]
    rw [show (⟨Role.system, baseSystem style⟩ : ChatMessage)
          :: ((if srcs.length > 0 then
                [⟨Role.system, "Context:\n" ++ contextText srcs⟩] else [])
              ++ ((recentMessagesOf table pid).map
                    (fun m => (⟨m.role, m.content⟩ : ChatMessage))
                ++ [⟨Role.user, msg⟩])) =
        (⟨Role.system, baseSystem style⟩
          :: ((if srcs.length > 0 then
                [⟨Role.system, "Context:\n" ++ contextText srcs⟩] else [])
              ++ (recentMessagesOf table pid).map (fun m => ⟨m.role, m.content⟩)))
          ++ [⟨Role.user, msg⟩] by simp]
    exact List.getLast?_concat _
  · simp only [recentMessagesOf, List.length_reverse, List.length_take]
    exact le_trans (Nat.min_le_left _ _) (by norm_num)
  · have h : ((historyQuery table pid).take 6).Pairwise byCreatedAtDesc :=
      (historyQuery_sorted table pid).sublist (List.take_sublist _ _)
    unfold recentMessagesOf
    rw [List.pairwise_reverse]
    exact h.imp (fun hx => hx)
  · have h : ((historyQuery table pid).take 6 ++ (historyQuery table pid).drop 6).Pairwise
        byCreatedAtDesc := by
      rw [List.take_append_drop]
      exact historyQuery_sorted table pid
    exact (List.pairwise_append.mp h).2.2
  · intro hs hr
    subst hs
    rw [messagesForLLM_shape, hr]
    simp

/-- Witness for C3 in the empty-context, empty-history case. -/
theorem C3_witness :
    messagesForLLM "concise" [] (recentMessagesOf [] "p1") "q" =
      [⟨Role.system, baseSystem "concise"⟩, ⟨Role.user, "q"⟩] :=
  (C3_prompt_composition "concise" "p1" "q" [] []).2.2.2.2.2.2.2.2 rfl rfl

/-- C7: on natural completion exactly two rows are written — the user turn
`{sessionId}-user` and the assistant turn `{sessionId}-assistant` — and a
persistence failure is swallowed: the event trace is unchanged, still ends
with `done`, and carries no `error` event. -/
theorem C7_persist_and_swallow (env : ControllerEnv) (pid msg : String)
    (h : naturalCompletion env) :
    ((runStream env pid msg).persisted =
      if env.dbWriteOk then
        some (persistRows env.sessionId pid msg (String.join (truthyTexts env.model.deltas)))
      else none) ∧
    (persistRows env.sessionId pid msg (String.join (truthyTexts env.model.deltas))).1.id =
        env.sessionId ++ "-user" ∧
    (persistRows env.sessionId pid msg (String.join (truthyTexts env.model.deltas))).2.id =
        env.sessionId ++ "-assistant" ∧
    (persistRows env.sessionId pid msg (String.join (truthyTexts env.model.deltas))).1.role =
        Role.user ∧
    (persistRows env.sessionId pid msg (String.join (truthyTexts env.model.deltas))).2.role =
        Role.assistant ∧
    (runStream { env with dbWriteOk := false } pid msg).events =
        (runStream env pid msg).events ∧
    (runStream env pid msg).events.getLast? = some Event.done ∧
    (runStream env pid msg).events.filter Event.isError = [] := by
  obtain ⟨h1, h2, h3, h4⟩ := h
  obtain ⟨scored, hs⟩ := Option.ne_none_iff_exists'.mp h3
  have hev : (runStream env pid msg).events =
      Event.sources (sourcesOf (relevanceFilter scored SIM_THRESHOLD))
        :: ((truthyTexts env.model.deltas).map Event.text ++ [Event.done]) := by
    simp [runStream, h1, h2, hs, h4]
  have hev' : (runStream { env with dbWriteOk := false } pid msg).events =
      Event.sources (sourcesOf (relevanceFilter scored SIM_THRESHOLD))
        :: ((truthyTexts env.model.deltas).map Event.text ++ [Event.done]) := by
    simp [runStream, h1, h2, hs, h4]
  refine ⟨?_, rfl, rfl, rfl, rfl, by rw [hev, hev'], ?_, ?_⟩
  · simp [runStream, h1, h2, hs, h4]
  · rw [hev, show Event.sources (sourcesOf (relevanceFilter scored SIM_THRESHOLD))
        :: ((truthyTexts env.model.deltas).map Event.text ++ [Event.done]) =
      (Event.sources (sourcesOf (relevanceFilter scored SIM_THRESHOLD))
        :: (truthyTexts env.model.deltas).map Event.text) ++ [Event.done] by simp]
    exact List.getLast?_concat _
  · rw [hev]
    simp only [List.filter_cons, List.filter_append]
    rw [filter_textMap_eq_nil Event.isError (fun _ => rfl)]
    simp [Event.isError]

/-- Witness for C7 at a concrete completed stream with a failing write. -/
theorem C7_witness :
    (runStream { envFixture with dbWriteOk := false } "p1" "hi").persisted = none ∧
    (runStream { envFixture with dbWriteOk := false } "p1" "hi").events.getLast? =
      some Event.done ∧
    (persistRows envFixture.sessionId "p1" "hi"
        (String.join (truthyTexts envFixture.model.deltas))).1.id = "s1-user" := by
  have h := C7_persist_and_swallow { envFixture with dbWriteOk := false } "p1" "hi"
    ⟨rfl, rfl, by decide, rfl⟩
  exact ⟨by simpa using h.1, h.2.2.2.2.2.2.1, h.2.1⟩

/-- C1: a stream run to natural completion emits exactly one `sources` event
first, then only `text` events whose payloads are the model's truthy deltas
in generation order, then exactly one terminal `done` and no `error`; the
concatenation of the `text` payloads equals any persisted assistant content;
and a failed stream is instead terminated by exactly one `error` event with
nothing persisted. -/
theorem C1_event_protocol (env : ControllerEnv) (pid msg : String) :
    (naturalCompletion env →
      wellFormedSuccessTrace (runStream env pid msg) env.model.deltas) ∧
    (¬ naturalCompletion env → errorTerminatedTrace (runStream env pid msg)) := by
  constructor
  · rintro ⟨h1, h2, h3, h4⟩
    obtain ⟨scored, hs⟩ := Option.ne_none_iff_exists'.mp h3
    have hev : (runStream env pid msg).events =
        Event.sources (sourcesOf (relevanceFilter scored SIM_THRESHOLD))
          :: ((truthyTexts env.model.deltas).map Event.text ++ [Event.done]) := by
      simp [runStream, h1, h2, hs, h4]
    have hassoc : (runStream env pid msg).events =
        (Event.sources (sourcesOf (relevanceFilter scored SIM_THRESHOLD))
          :: (truthyTexts env.model.deltas).map Event.text) ++ [Event.done] := by
      rw [hev]; simp
    have hpay : textPayloads (runStream env pid msg).events =
        truthyTexts env.model.deltas := by
      rw [hev]
      simp only [textPayloads, List.filterMap_cons, List.filterMap_append]
      have := textPayloads_textMap (truthyTexts env.model.deltas)
      simp only [textPayloads] at this
      rw [this]
      simp
    refine ⟨?_, ?_, ?_, ?_, ?_, ?_, hpay, ?_⟩
    · rw [hev]
      simp only [List.filter_cons, List.filter_append]
      rw [filter_textMap_eq_nil Event.isSources (fun _ => rfl)]
      simp [Event.isSources]
    · rw [hev]; rfl
    · rw [hev]
      simp only [List.filter_cons, List.filter_append]
      rw [filter_textMap_eq_nil Event.isDone (fun _ => rfl)]
      simp [Event.isDone]
    · rw [hassoc]
      exact List.getLast?_concat _
    · rw [hev]
      simp only [List.filter_cons, List.filter_append]
      rw [filter_textMap_eq_nil Event.isError (fun _ => rfl)]
      simp [Event.isError]
    · rw [hassoc]
      intro e he
      simp only [List.cons_append, List.dropLast_concat, List.drop_one, List.tail_cons] at he
      obtain ⟨s, _, rfl⟩ := List.mem_map.mp he
      rfl
    · intro rows hrow
      rw [hpay]
      simp only [runStream, h1, h2, hs, h4] at hrow
      simp only [Bool.true_eq_false, if_false, Bool.false_eq_true] at hrow
      split at hrow
      · injection hrow with hrow
        subst hrow
        rfl
      · exact absurd hrow (by simp)
  · intro hn
    by_cases h1 : env.openaiKeyConfigured = true
    · by_cases h2 : env.pineconeConfigured = true
      · cases hs : env.retrieval with
        | none =>
          have hout : runStream env pid msg =
              ⟨[Event.error genericStreamError], none⟩ := by
            simp [runStream, h1, h2, hs]
          rw [hout]
          exact ⟨rfl, rfl, rfl, rfl⟩
        | some scored =>
          have h4 : env.model.midFail = true := by
            by_contra h4
            exact hn ⟨h1, h2, by simp [hs], Bool.not_eq_true _ ▸ h4⟩
          have hev : (runStream env pid msg).events =
              Event.sources (sourcesOf (relevanceFilter scored SIM_THRESHOLD))
                :: ((truthyTexts env.model.deltas).map Event.text
                  ++ [Event.error genericStreamError]) := by
            simp [runStream, h1, h2, hs, h4]
          have hassoc : (runStream env pid msg).events =
              (Event.sources (sourcesOf (relevanceFilter scored SIM_THRESHOLD))
                :: (truthyTexts env.model.deltas).map Event.text)
                ++ [Event.error genericStreamError] := by
            rw [hev]; simp
          refine ⟨?_, ?_, ?_, ?_⟩
          · rw [hev]
            simp only [List.filter_cons, List.filter_append]
            rw [filter_textMap_eq_nil Event.isError (fun _ => rfl)]
            simp [Event.isError]
          · rw [hassoc, List.getLast?_concat]
            rfl
          · rw [hev]
            simp only [List.filter_cons, List.filter_append]
            rw [filter_textMap_eq_nil Event.isDone (fun _ => rfl)]
            simp [Event.isDone]
          · simp [runStream, h1, h2, hs, h4]
      · have h2' : env.pineconeConfigured = false := Bool.not_eq_true _ ▸ h2
        have hout : runStream env pid msg =
            ⟨[Event.error "Pinecone environment variables not configured"], none⟩ := by
          simp [runStream, h1, h2']
        rw [hout]
        exact ⟨rfl, rfl, rfl, rfl⟩
    · have h1' : env.openaiKeyConfigured = false := Bool.not_eq_true _ ▸ h1
      have hout : runStream env pid msg =
          ⟨[Event.error "OpenAI API key not configured"], none⟩ := by
        simp [runStream, h1']
      rw [hout]
      exact ⟨rfl, rfl, rfl, rfl⟩

/-- Witness for C1: a concrete completed stream and a concrete mid-stream
failure. -/
theorem C1_witness :
    wellFormedSuccessTrace (runStream envFixture "p1" "hi") envFixture.model.deltas ∧
    errorTerminatedTrace (runStream envMidFail "p1" "hi") :=
  ⟨(C1_event_protocol envFixture "p1" "hi").1 ⟨rfl, rfl, by decide, rfl⟩,
   (C1_event_protocol envMidFail "p1" "hi").2 (fun h => by
     have := h.2.2.2
     simp [envMidFail] at this)⟩

/-- Helper: `doRelease` keeps the counter in step with the flag. -/
theorem doRelease_invariant (ls : LoopState) (h : releaseInvariant ls) :
    releaseInvariant (doRelease ls) := by
  unfold doRelease
  split
  · exact h
  · unfold releaseInvariant at *
    simp_all

/-- Helper: processing one line keeps the counter in step with the flag. -/
theorem processLine_invariant (env : TransportEnv) (ls : LoopState) (line : String)
    (h : releaseInvariant ls) : releaseInvariant (processLine env ls line).1 := by
  unfold processLine
  dsimp only
  repeat' split
  all_goals first
    | exact h
    | exact doRelease_invariant _ h

/-- Helper: processing a block of lines keeps the counter in step with the
flag. -/
theorem processLines_invariant (env : TransportEnv) (lines : List String) :
    ∀ ls : LoopState, releaseInvariant ls →
      releaseInvariant (processLines env ls lines).1 := by
  induction lines with
  | nil => intro ls h; exact h
  | cons l rest ih =>
    intro ls h
    have hinv := processLine_invariant env ls l h
    rcases hp : processLine env ls l with ⟨ls', s⟩
    rw [hp] at hinv
    simp only [processLines, hp]
    cases s with
    | next => exact ih ls' hinv
    | exitDone => exact hinv
    | exitError => exact hinv

/-- Helper: the whole read loop keeps the counter in step with the flag. -/
theorem runReadLoop_invariant (env : TransportEnv) (chunks : List String) :
    ∀ ls : LoopState, releaseInvariant ls →
      releaseInvariant (runReadLoop env ls chunks).1 := by
  induction chunks with
  | nil =>
    intro ls h
    unfold runReadLoop
    cases env.ending <;> exact h
  | cons c rest ih =>
    intro ls h
    have hinv := processLines_invariant env (jsSplitNewlines c) ls h
    rcases hp : processLines env ls (jsSplitNewlines c) with ⟨ls', s⟩
    rw [hp] at hinv
    simp only [runReadLoop, hp]
    cases s with
    | next => exact ih ls' hinv
    | exitDone => exact hinv
    | exitError => exact hinv

/-- C8: whenever a request passes the guard and the transport reader is
acquired, `sendMessage` releases the reader exactly once — across every exit
path: `done` event, `error` event, stream exhaustion, abort, or another read
failure. -/
theorem C8_reader_released_exactly_once (env : TransportEnv) (st : ChatState)
    (content : String) (optImages : List String)
    (hguard : ¬ (jsTrim content = "" ∨ st.isLoading = true))
    (hfetch : env.fetchOk = true) (hreader : env.readerAvailable = true) :
    (sendMessage env st content optImages).releases = 1 := by
  unfold sendMessage
  rw [if_neg hguard, hfetch, hreader]
  simp only [Bool.true_eq_false, if_false]
  have hinv := runReadLoop_invariant env env.chunks
    ⟨{ messages := st.messages ++
        [{ id := env.userMsgId ++ "_user", role := Role.user, content := jsTrim content,
           metadata := none, images := optImages, createdAt := env.now }]
       isLoading := true, streamingContent := "", sources := [], error := none },
      "", [], false, 0⟩ (by unfold releaseInvariant; simp)
  rcases hp : runReadLoop env
    ⟨{ messages := st.messages ++
        [{ id := env.userMsgId ++ "_user", role := Role.user, content := jsTrim content,
           metadata := none, images := optImages, createdAt := env.now }]
       isLoading := true, streamingContent := "", sources := [], error := none },
      "", [], false, 0⟩ env.chunks with ⟨ls, ex⟩
  rw [hp] at hinv
  have hone : (if ls.readerReleased then ls
      else { ls with releases := ls.releases + 1 }).releases = 1 := by
    unfold releaseInvariant at hinv
    by_cases hr : ls.readerReleased
    · simp [hr, hinv, if_pos hr ▸ hinv]
      rw [hinv, if_pos hr]
    · simp only [if_neg hr]
      rw [hinv, if_neg hr]
  simp only [hp]
  cases ex <;> simpa using hone

/-- Witness for C8: the release count is 1 both on a completed stream and on
a caller-initiated abort. -/
theorem C8_witness :
    (¬ (jsTrim "query" = "" ∨ chatState0.isLoading = true)) ∧
    (sendMessage transportFixture chatState0 "query" []).releases = 1 ∧
    (sendMessage transportAborted chatState0 "query" []).releases = 1 :=
  ⟨by decide,
   C8_reader_released_exactly_once transportFixture chatState0 "query" [] (by decide) rfl rfl,
   C8_reader_released_exactly_once transportAborted chatState0 "query" [] (by decide) rfl rfl⟩

end Knowflow
